import Mathlib

/-!
Shallow embedding of the egg-netlist-synthesizer core: the BooleanLanguage
e-nodes, the gate cost function, the rule set built by Synthesizer::new, the
control flow of Synthesizer::run, the CLI argument handling of main, and the
expression query expr_get_gate_output_name. Rust f64 costs are modelled as
rationals; Option.none models a Rust panic (a failed unwrap or an
out-of-bounds index); the parts supplied by the external egg crate
(saturation runner, ILP extractor, svg writer) are abstracted as function
parameters where a claim only concerns the glue code of this repository.
-/

namespace NetlistSynth

/-- The metric used to cost gates (src/src/lib.rs, enum Metric). -/
inductive Metric where
  | area
  | power
  | timing
deriving DecidableEq

/-- Metric::from_str (src/src/lib.rs lines 72-83): only Area, Power and Timing
parse; none models the Err case. -/
def Metric.from_str : String → Option Metric
  | "Area" => some .area
  | "Power" => some .power
  | "Timing" => some .timing
  | _ => none

/-- A cell in a library (src/src/lib.rs, struct Cell). The f64 fields are
modelled as rationals; searcher and applier are kept in their textual
s-expression form. -/
structure Cell where
  name : String
  area : Rat
  power : Rat
  timing : Rat
  searcher : String
  applier : String
deriving DecidableEq

/-- An e-node of the BooleanLanguage (src/src/lib.rs, define_language! block).
Children are e-class ids, modelled as naturals. The Symbol payload of gate and
symbol nodes is a string; num carries the i32 payload. -/
inductive BLNode where
  | module (children : List Nat)
  | letb (name body : Nat)
  | and (a b : Nat)
  | or (a b : Nat)
  | not (a : Nat)
  | input (port driver : Nat)
  | output (port : Nat)
  | num (n : Int)
  | symbol (s : String)
  | gate (name : String) (pins : List Nat)
deriving DecidableEq

/-- The child e-class ids of an e-node, in the order the egg Language fold
visits them; the string payload of gate and symbol nodes and the integer of a
num node are not children. -/
def BLNode.children : BLNode → List Nat
  | .module cs => cs
  | .letb a b => [a, b]
  | .and a b => [a, b]
  | .or a b => [a, b]
  | .not a => [a]
  | .input a b => [a, b]
  | .output a => [a]
  | .num _ => []
  | .symbol _ => []
  | .gate _ pins => pins

/-- GateCostFunction (src/src/lib.rs lines 85-88): the chosen metric and the
library. The HashMap from names to cells is modelled as an association list
together with its lookup. -/
structure GateCostFunction where
  metric : Metric
  library : List (String × Cell)

/-- The metric selection match inside gate_cost (src/src/lib.rs lines 93-97). -/
def metricValue (m : Metric) (c : Cell) : Rat :=
  match m with
  | .area => c.area
  | .power => c.power
  | .timing => c.timing

/-- GateCostFunction::gate_cost (src/src/lib.rs lines 91-98): the library
lookup result is unwrapped, so none models the panic on a name that is not a
key of the library map. -/
def GateCostFunction.gate_cost (f : GateCostFunction) (name : String) : Option Rat :=
  (f.library.lookup name).map (metricValue f.metric)

/-- The per-operator cost, the match at the top of node_cost (src/src/lib.rs
lines 109-120): 1e9 for And, Or and Not, the cell metric for Gate (none when
gate_cost panics), 0 for every other node kind. -/
def GateCostFunction.op_cost (f : GateCostFunction) : BLNode → Option Rat
  | .and _ _ => some 1000000000
  | .or _ _ => some 1000000000
  | .not _ => some 1000000000
  | .gate name _ => f.gate_cost name
  | .module _ => some 0
  | .letb _ _ => some 0
  | .num _ => some 0
  | .symbol _ => some 0
  | .input _ _ => some 0
  | .output _ => some 0

/-- The canonical e-graph view that node_cost reads: class id i holds the list
of e-nodes of that class. -/
abbrev EGraphC := List (List BLNode)

/-- Addition of optional costs; none (a panic below) propagates. -/
def optAdd : Option Rat → Option Rat → Option Rat
  | none, _ => none
  | some _, none => none
  | some a, some b => some (a + b)

/-- One step of the running minimum in the inner loop of node_cost
(src/src/lib.rs lines 126-131): the update fires only when the child cost is
strictly below the current minimum; none (a panic below) propagates. -/
def optMin : Option Rat → Option Rat → Option Rat
  | none, _ => none
  | some _, none => none
  | some m, some c => some (if c < m then c else m)

/-- The body of node_cost (src/src/lib.rs lines 102-134) with the per-child
class contribution passed in: enode.fold starts the sum at the operator cost
and adds one contribution per child class id. -/
def node_cost_go (f : GateCostFunction) (contrib : Nat → Option Rat) (n : BLNode) : Option Rat :=
  n.children.foldl (fun s id => optAdd s (contrib id)) (f.op_cost n)

/-- The contribution of one child e-class (src/src/lib.rs lines 124-133): the
running minimum starts at 1e9 and scans every e-node of the class, recursing
through node_cost. The Rust recursion is unbounded and diverges on cyclic
class dependencies, so the recursion depth is modelled with fuel; none is
returned when the fuel runs out, and also when the class id is out of range,
where the Rust indexing would panic. -/
def class_contrib (f : GateCostFunction) (eg : EGraphC) : Nat → Nat → Option Rat
  | 0, _ => none
  | fuel + 1, id =>
    match eg.get? id with
    | none => none
    | some nodes =>
      nodes.foldl (fun acc n => optMin acc (node_cost_go f (class_contrib f eg fuel) n)) (some 1000000000)

/-- node_cost of the LpCostFunction implementation (src/src/lib.rs lines
101-135), at a given recursion fuel. -/
def node_cost (f : GateCostFunction) (eg : EGraphC) (fuel : Nat) (n : BLNode) : Option Rat :=
  node_cost_go f (class_contrib f eg fuel) n

/-- Collects the costs of a list of e-nodes; none as soon as one cost panics. -/
def mapCosts (g : BLNode → Option Rat) : List BLNode → Option (List Rat)
  | [] => some []
  | n :: l =>
    match g n, mapCosts g l with
    | some c, some cs => some (c :: cs)
    | _, _ => none

/-- The minimum of a list of costs, none on the empty list. -/
def listMin : List Rat → Option Rat
  | [] => none
  | c :: cs => some (cs.foldl min c)

/-- Claim-side contribution of a child e-class, following the amended wording
of claim C1: the minimum of 1e9 and the cost of the cheapest member (1e9 alone
for an empty class); none when a member cost panics or the id is out of
range. -/
def spec_contrib (f : GateCostFunction) (eg : EGraphC) (fuel id : Nat) : Option Rat :=
  match eg.get? id with
  | none => none
  | some nodes =>
    match mapCosts (node_cost f eg fuel) nodes with
    | none => none
    | some cs =>
      match listMin cs with
      | none => some 1000000000
      | some m => some (min 1000000000 m)

/-- A cost function instance: metric Area over the empty library. -/
def cf0 : GateCostFunction := ⟨.area, []⟩

/-- A three-class e-graph: class 0 holds a symbol, class 1 an And over class 0
twice, class 2 an And over class 1 twice. -/
def eg1 : EGraphC := [[.symbol "a"], [.and 0 0], [.and 1 1]]

/-- A rewrite rule as Synthesizer::new declares it: its name, the searcher
pattern and the applier pattern, kept in their textual form. -/
structure Rule where
  name : String
  searcher : String
  applier : String
deriving DecidableEq

/-- The library-derived rule for one cell (src/src/lib.rs lines 161-169). -/
def Rule.ofCell (c : Cell) : Rule := ⟨c.name, c.searcher, c.applier⟩

/-- The seven built-in rules of Synthesizer::new (src/src/lib.rs lines
150-158), in declaration order. -/
def builtinRules : List Rule := [
  ⟨"commute-and", "(& ?x ?y)", "(& ?y ?x)"⟩,
  ⟨"commute-or", "(| ?x ?y)", "(| ?y ?x)"⟩,
  ⟨"demorgan-and", "(! (& ?x ?y))", "(| (! ?x) (! ?y))"⟩,
  ⟨"demorgan-or", "(! (| ?x ?y))", "(& (! ?x) (! ?y))"⟩,
  ⟨"inline-let-and", "?a = (let ?x ?y), ?b = (& ?x ?z)", "?b = (& ?y ?z)"⟩,
  ⟨"inline-let-or", "?a = (let ?x ?y), ?b = (| ?x ?z)", "?b = (| ?y ?z)"⟩,
  ⟨"inline-let-not", "?a = (let ?x ?y), ?b = (! ?x)", "?b = (! ?y)"⟩]

/-- The rule list Synthesizer::new builds (src/src/lib.rs lines 150-169): the
built-ins, then one rule per cell of the library map, in the order the values
iteration of the std HashMap yields them. That order is a parameter here
because std::collections::HashMap does not fix it: it varies between
executions of the same program. -/
def mkRules (libraryValues : List Cell) : List Rule :=
  builtinRules ++ libraryValues.map Rule.ofCell

/-- The nand2 cell of the spec scenarios. -/
def cellNand2 : Cell :=
  ⟨"nand2", 1, 1, 1, "(| (! ?x) (! ?y))", "(nand2 (input A ?x) (input B ?y) (output Y))"⟩

/-- The inv cell of the spec scenarios. -/
def cellInv : Cell :=
  ⟨"inv", 1, 1, 1, "(! ?x)", "(inv (input A ?x) (output Y))"⟩

/-- The stop reasons the egg Runner can report. -/
inductive StopReason where
  | saturated
  | iterationLimit
  | nodeLimit
  | timeLimit
  | other
deriving DecidableEq

/-- What the egg Runner::run call hands back to Synthesizer::run: the
saturated (or budget-cut) e-graph, the root class ids, and why it stopped. -/
structure RunnerOut where
  egraph : EGraphC
  roots : List Nat
  stop : StopReason

/-- The tail of Synthesizer::run after the saturation call (src/src/lib.rs
lines 198-228): index roots[0] (panic when empty), extract the best expression
with the LpExtractor, print the report and the explanation, write egraph.svg
unwrapping the result (none models that panic), and return the extracted
expression. solve and toSvg abstract the external egg crate; the stop reason
is never consulted. -/
def run_glue (solve : EGraphC → Nat → List BLNode) (toSvg : EGraphC → Option Unit)
    (out : RunnerOut) : Option (List BLNode) :=
  match out.roots.get? 0 with
  | none => none
  | some root =>
    let best := solve out.egraph root
    match toSvg out.egraph with
    | some _ => some best
    | none => none

/-- Synthesizer::run (src/src/lib.rs lines 183-228): rebuild plus saturation
are the external egg Runner, abstracted as saturate; the rest is run_glue. -/
def Synthesizer_run (saturate : EGraphC → List BLNode → RunnerOut)
    (solve : EGraphC → Nat → List BLNode) (toSvg : EGraphC → Option Unit)
    (eg : EGraphC) (start : List BLNode) : Option (List BLNode) :=
  run_glue solve toSvg (saturate eg start)

/-- The start expression hardcoded in main (src/src/main.rs lines 147-149). -/
def hardcoded_start : String := "(| (& (| a1 b1) (& a0 b0)) (& a1 (& a0 b0)))"

/-- The configuration main derives from argv (src/src/main.rs lines 110-149):
args[1] is the library path and args[2] the metric name (indexing panics when
either is absent, and an unknown metric name panics at the unwrap of
Metric::from_str); the synthesized start expression is the hardcoded string,
and no argument past args[2] is ever read. -/
def main_config (args : List String) : Option (String × Metric × String) :=
  match args.get? 1 with
  | none => none
  | some lib =>
    match args.get? 2 with
    | none => none
    | some mname =>
      match Metric.from_str mname with
      | none => none
      | some m => some (lib, m, hardcoded_start)

/-- One step of the names-collecting loop of expr_get_gate_output_name
(src/src/lib.rs lines 414-427): an Output pin appends its port symbol, any
other pin is skipped; none models the panics (a port that is not a symbol, or
an id out of range). -/
def outputStep (e : List BLNode) (acc : Option (List String)) (id : Nat) : Option (List String) :=
  match acc with
  | none => none
  | some names =>
    match e.get? id with
    | some (.output sid) =>
      match e.get? sid with
      | some (.symbol s) => some (names ++ [s])
      | _ => none
    | some _ => some names
    | none => none

/-- The names vector collected over the pins of a gate. -/
def outputNames (e : List BLNode) (pinIds : List Nat) : Option (List String) :=
  pinIds.foldl (outputStep e) (some [])

/-- expr_get_gate_output_name (src/src/lib.rs lines 410-432): the expression
is a RecExpr whose root is its last node; the function collects the port
symbols of all Output pins and returns names[0], so head? none models the
indexing panic on a gate without an Output pin (and none also covers the
panics on a non-gate root or an empty expression). -/
def expr_get_gate_output_name (e : List BLNode) : Option String :=
  match e.getLast? with
  | some (.gate _ pinIds) =>
    match outputNames e pinIds with
    | some names => names.head?
    | none => none
  | _ => none

/-- Claim-side: the port symbol of the first Output pin in pin order, none
when no pin is an Output (or when the port of that first Output is not a
symbol). -/
def first_output_name (e : List BLNode) : List Nat → Option String
  | [] => none
  | id :: rest =>
    match e.get? id with
    | some (.output sid) =>
      match e.get? sid with
      | some (.symbol s) => some s
      | _ => none
    | _ => first_output_name e rest

/-- The port symbols of all Output pins in pin order, skipping everything
else; the claim-side counterpart of the collected names vector. -/
def collect_output_names (e : List BLNode) : List Nat → List String
  | [] => []
  | id :: rest =>
    match e.get? id with
    | some (.output sid) =>
      match e.get? sid with
      | some (.symbol s) => s :: collect_output_names e rest
      | _ => collect_output_names e rest
    | _ => collect_output_names e rest

/-- A pin id is well formed for output collection: it is in range, and when it
is an Output its port id resolves to a symbol node. -/
def pin_ok (e : List BLNode) (id : Nat) : Bool :=
  match e.get? id with
  | some (.output sid) =>
    match e.get? sid with
    | some (.symbol _) => true
    | _ => false
  | some _ => true
  | none => false

/-- A concrete gate expression: an inv gate with one Input pin (port A driven
by symbol a) and one Output pin (port Y), the gate node last. -/
def egateExpr : List BLNode :=
  [.symbol "Y", .output 0, .symbol "A", .symbol "a", .input 2 3, .gate "inv" [4, 1]]


theorem foldl_optAdd_none (contrib : Nat → Option Rat) (l : List Nat) :
    l.foldl (fun s id => optAdd s (contrib id)) none = none := by
  induction l with
  | nil => rfl
  | cons a l ih =>
    simp only [List.foldl_cons]
    have h : optAdd none (contrib a) = none := rfl
    rw [h, ih]

theorem foldl_optMin_none (g : BLNode → Option Rat) (l : List BLNode) :
    l.foldl (fun acc n => optMin acc (g n)) none = none := by
  induction l with
  | nil => rfl
  | cons a l ih =>
    simp only [List.foldl_cons]
    have h : optMin none (g a) = none := rfl
    rw [h, ih]

theorem foldl_optMin_some (g : BLNode → Option Rat) :
    ∀ (l : List BLNode) (m : Rat),
      l.foldl (fun acc n => optMin acc (g n)) (some m) =
        match mapCosts g l with
        | none => none
        | some cs => some (cs.foldl min m) := by
  intro l
  induction l with
  | nil => intro m; rfl
  | cons a l ih =>
    intro m
    simp only [List.foldl_cons]
    cases hg : g a with
    | none =>
      have h1 : optMin (some m) none = none := rfl
      rw [h1, foldl_optMin_none]
      simp [mapCosts, hg]
    | some c =>
      have h1 : optMin (some m) (some c) = some (if c < m then c else m) := rfl
      rw [h1, ih]
      have h2 : (if c < m then c else m) = min m c := by
        rcases lt_or_le c m with h | h
        · rw [if_pos h, min_def, if_neg (not_le.mpr h)]
        · rw [if_neg (not_lt.mpr h), min_def, if_pos h]
      cases hmc : mapCosts g l with
      | none => simp [mapCosts, hg, hmc]
      | some cs => simp [mapCosts, hg, hmc, h2]

theorem foldl_min_eq : ∀ (cs : List Rat) (b : Rat),
    cs.foldl min b = match listMin cs with | none => b | some m => min b m := by
  intro cs
  induction cs with
  | nil => intro b; rfl
  | cons c cs ih =>
    intro b
    simp only [List.foldl_cons, listMin]
    rw [ih (min b c), ih c]
    cases h : listMin cs with
    | none => simp [h]
    | some m => simp [h, min_assoc]

theorem class_contrib_succ (f : GateCostFunction) (eg : EGraphC) (fuel id : Nat) :
    class_contrib f eg (fuel + 1) id = spec_contrib f eg fuel id := by
  cases h : eg.get? id with
  | none => simp only [class_contrib, spec_contrib, h]
  | some nodes =>
    simp only [class_contrib, spec_contrib, h]
    rw [foldl_optMin_some (fun n => node_cost_go f (class_contrib f eg fuel) n) nodes 1000000000]
    have hmap : mapCosts (fun n => node_cost_go f (class_contrib f eg fuel) n) nodes
        = mapCosts (node_cost f eg fuel) nodes := rfl
    rw [hmap]
    cases hcs : mapCosts (node_cost f eg fuel) nodes with
    | none => rfl
    | some cs =>
      show some (cs.foldl min 1000000000)
          = match listMin cs with
            | none => some 1000000000
            | some m => some (min 1000000000 m)
      rw [foldl_min_eq cs 1000000000]
      cases hm : listMin cs with
      | none => rfl
      | some m => rfl

theorem class_contrib_one_step (f : GateCostFunction) (eg : EGraphC) (fuel id : Nat) :
    class_contrib f eg (fuel + 1) id =
      match eg.get? id with
      | none => none
      | some nodes =>
        nodes.foldl (fun acc n => optMin acc (node_cost f eg fuel n)) (some 1000000000) := rfl

theorem eval_contrib0 (fuel : Nat) : class_contrib cf0 eg1 (fuel + 1) 0 = some 0 := by
  rw [class_contrib_one_step]
  show optMin (some 1000000000) (node_cost cf0 eg1 fuel (.symbol "a")) = some 0
  have h1 : node_cost cf0 eg1 fuel (.symbol "a") = some 0 := rfl
  rw [h1]
  show some (if (0 : Rat) < 1000000000 then 0 else 1000000000) = some 0
  rw [if_pos (by norm_num)]

theorem eval_nodecost1 (fuel : Nat) :
    node_cost cf0 eg1 (fuel + 1) (.and 0 0) = some 1000000000 := by
  show optAdd (optAdd (cf0.op_cost (.and 0 0)) (class_contrib cf0 eg1 (fuel + 1) 0))
      (class_contrib cf0 eg1 (fuel + 1) 0) = some 1000000000
  rw [eval_contrib0 fuel]
  show some ((1000000000 : Rat) + 0 + 0) = some 1000000000
  norm_num

theorem eval_contrib1 (fuel : Nat) :
    class_contrib cf0 eg1 (fuel + 1 + 1) 1 = some 1000000000 := by
  rw [class_contrib_one_step]
  show optMin (some 1000000000) (node_cost cf0 eg1 (fuel + 1) (.and 0 0)) = some 1000000000
  rw [eval_nodecost1 fuel]
  show some (if (1000000000 : Rat) < 1000000000 then 1000000000 else 1000000000) = some 1000000000
  rw [if_neg (by norm_num)]

theorem eval_nodecost2 (fuel : Nat) :
    node_cost cf0 eg1 (fuel + 1 + 1) (.and 1 1) = some 3000000000 := by
  show optAdd (optAdd (cf0.op_cost (.and 1 1)) (class_contrib cf0 eg1 (fuel + 1 + 1) 1))
      (class_contrib cf0 eg1 (fuel + 1 + 1) 1) = some 3000000000
  rw [eval_contrib1 fuel]
  show some ((1000000000 : Rat) + 1000000000 + 1000000000) = some 3000000000
  norm_num

theorem eval_contrib2 (fuel : Nat) :
    class_contrib cf0 eg1 (fuel + 1 + 1 + 1) 2 = some 1000000000 := by
  rw [class_contrib_one_step]
  show optMin (some 1000000000) (node_cost cf0 eg1 (fuel + 1 + 1) (.and 1 1)) = some 1000000000
  rw [eval_nodecost2 fuel]
  show some (if (3000000000 : Rat) < 1000000000 then 3000000000 else 1000000000) = some 1000000000
  rw [if_neg (by norm_num)]

theorem eval_nodecost_not2 (fuel : Nat) :
    node_cost cf0 eg1 (fuel + 1 + 1 + 1) (.not 2) = some 2000000000 := by
  show optAdd (cf0.op_cost (.not 2)) (class_contrib cf0 eg1 (fuel + 1 + 1 + 1) 2) = some 2000000000
  rw [eval_contrib2 fuel]
  show some ((1000000000 : Rat) + 1000000000) = some 2000000000
  norm_num

theorem foldl_optMin_all_gt (g : BLNode → Option Rat) :
    ∀ l : List BLNode, (∀ n ∈ l, ∃ c, g n = some c ∧ 1000000000 < c) →
      l.foldl (fun acc n => optMin acc (g n)) (some 1000000000) = some 1000000000 := by
  intro l
  induction l with
  | nil => intro _; rfl
  | cons a l ih =>
    intro h
    obtain ⟨c, hc, hgt⟩ := h a (List.mem_cons_self a l)
    simp only [List.foldl_cons]
    rw [hc]
    have h2 : optMin (some 1000000000) (some c) = some 1000000000 := by
      show some (if c < 1000000000 then c else 1000000000) = some 1000000000
      rw [if_neg (not_lt.mpr hgt.le)]
    rw [h2]
    exact ih fun n hn => h n (List.mem_cons_of_mem a hn)

/-- C1 (counterexample): in the e-graph eg1 the only member of class 2 (the
node And 1 1) costs 3e9, yet the contribution of class 2 to its parents is
1e9, and a Not node over class 2 costs 2e9 rather than the 1e9 + 3e9 that the
claimed formula (operator cost plus the minimum cost over the e-nodes of the
child class) dictates. -/
theorem c1_contrib_not_member_min :
    eg1.get? 2 = some [.and 1 1] ∧
    node_cost cf0 eg1 3 (.and 1 1) = some 3000000000 ∧
    class_contrib cf0 eg1 4 2 = some 1000000000 ∧
    class_contrib cf0 eg1 4 2 ≠ some 3000000000 ∧
    node_cost cf0 eg1 4 (.not 2) = some 2000000000 ∧
    node_cost cf0 eg1 4 (.not 2) ≠ some (1000000000 + 3000000000) := by
  refine ⟨rfl, eval_nodecost2 1, eval_contrib2 1, ?_, eval_nodecost_not2 1, ?_⟩
  · rw [eval_contrib2 1]
    simp only [ne_eq, Option.some.injEq]
    norm_num
  · rw [eval_nodecost_not2 1]
    simp only [ne_eq, Option.some.injEq]
    norm_num

/-- C1 (amended): node_cost is the operator cost plus one contribution per
child e-class, where the operator cost is 1e9 for And, Or and Not, the chosen
metric of the library cell named by a Gate (a panic when the name is not in
the library), and 0 for Module, Let, Input, Output, Symbol and Num; and each
child class contributes the minimum of 1e9 and the minimum cost over the
e-nodes it contains (the running minimum is initialized to 1e9). -/
theorem c1_cost_function_amended (f : GateCostFunction) (eg : EGraphC) (fuel id : Nat)
    (n : BLNode) (a b x : Nat) (name : String) (pins : List Nat) :
    node_cost f eg fuel n
        = n.children.foldl (fun s i => optAdd s (class_contrib f eg fuel i)) (f.op_cost n) ∧
    class_contrib f eg (fuel + 1) id = spec_contrib f eg fuel id ∧
    f.op_cost (.and a b) = some 1000000000 ∧
    f.op_cost (.or a b) = some 1000000000 ∧
    f.op_cost (.not x) = some 1000000000 ∧
    f.op_cost (.gate name pins) = (f.library.lookup name).map (metricValue f.metric) ∧
    f.op_cost (.module pins) = some 0 ∧
    f.op_cost (.letb a b) = some 0 ∧
    f.op_cost (.input a b) = some 0 ∧
    f.op_cost (.output x) = some 0 ∧
    f.op_cost (.symbol name) = some 0 ∧
    (∀ k : Int, f.op_cost (.num k) = some 0) :=
  ⟨rfl, class_contrib_succ f eg fuel id, rfl, rfl, rfl, rfl, rfl, rfl, rfl, rfl, rfl,
    fun _ => rfl⟩

/-- C8: the contribution of a child e-class is capped at 1e9: whenever every
member of the class has a cost strictly above 1e9, the class contributes
exactly 1e9 (the running minimum stays at its 1e9 initialization), so deeper
unmapped nesting cannot increase the total. -/
theorem c8_contribution_capped (f : GateCostFunction) (eg : EGraphC) (fuel id : Nat)
    (nodes : List BLNode) (hid : eg.get? id = some nodes)
    (hgt : ∀ n ∈ nodes, ∃ c, node_cost f eg fuel n = some c ∧ 1000000000 < c) :
    class_contrib f eg (fuel + 1) id = some 1000000000 := by
  rw [class_contrib_one_step, hid]
  exact foldl_optMin_all_gt (node_cost f eg fuel) nodes hgt

/-- C8 (witness): class 2 of eg1 has its only member costing 3e9 > 1e9, and
its contribution is exactly 1e9. -/
theorem c8_contribution_capped_witness :
    class_contrib cf0 eg1 4 2 = some 1000000000 := by
  refine c8_contribution_capped cf0 eg1 3 2 [.and 1 1] rfl ?_
  intro n hn
  have hn2 : n = BLNode.and 1 1 := by simpa using hn
  subst hn2
  exact ⟨3000000000, eval_nodecost2 1, by norm_num⟩

/-- C9: evaluating the cost function on a Gate e-node whose name is not a key
of the library map panics (the lookup is unwrapped), modelled as none. -/
theorem c9_unknown_gate_panics (f : GateCostFunction) (eg : EGraphC) (fuel : Nat)
    (name : String) (pins : List Nat) (h : f.library.lookup name = none) :
    node_cost f eg fuel (.gate name pins) = none := by
  show pins.foldl (fun s id => optAdd s (class_contrib f eg fuel id))
      (f.gate_cost name) = none
  have hop : f.gate_cost name = none := by
    rw [GateCostFunction.gate_cost, h]
    rfl
  rw [hop]
  exact foldl_optAdd_none _ pins

/-- C9 (witness): a nand2 gate against the empty library makes the cost
function panic. -/
theorem c9_unknown_gate_panics_witness :
    node_cost cf0 [] 0 (.gate "nand2" []) = none :=
  c9_unknown_gate_panics cf0 [] 0 "nand2" [] rfl

/-- C2: for every library, the rule list built by Synthesizer::new contains
the seven built-in rules (commute-and, commute-or, demorgan-and, demorgan-or,
inline-let-and, inline-let-or, inline-let-not, in that order at the front),
and in addition exactly one rule per library cell, whose left-hand side is the
searcher of the cell and whose right-hand side is the applier of the cell;
nothing else is in the list. -/
theorem c2_rule_set (lib : List Cell) :
    (∀ r ∈ builtinRules, r ∈ mkRules lib) ∧
    builtinRules.length = 7 ∧
    (mkRules lib).take 7 = builtinRules ∧
    (mkRules lib).drop 7 = lib.map Rule.ofCell ∧
    (∀ c ∈ lib, Rule.ofCell c ∈ mkRules lib) ∧
    (∀ c ∈ lib, Rule.ofCell c = ⟨c.name, c.searcher, c.applier⟩) ∧
    (∀ r ∈ mkRules lib, r ∈ builtinRules ∨ ∃ c ∈ lib, r = Rule.ofCell c) := by
  refine ⟨?_, rfl, rfl, rfl, ?_, ?_, ?_⟩
  · intro r hr
    exact List.mem_append.2 (Or.inl hr)
  · intro c hc
    exact List.mem_append.2 (Or.inr (List.mem_map.2 ⟨c, hc, rfl⟩))
  · intro c _
    rfl
  · intro r hr
    rcases List.mem_append.1 hr with h | h
    · exact Or.inl h
    · rcases List.mem_map.1 h with ⟨c, hc, rfl⟩
      exact Or.inr ⟨c, hc, rfl⟩

/-- C2 (witness): over the one-cell library holding nand2, the rule set
contains commute-and and the nand2 rule. -/
theorem c2_rule_set_witness :
    (⟨"commute-and", "(& ?x ?y)", "(& ?y ?x)"⟩ : Rule) ∈ mkRules [cellNand2] ∧
    Rule.ofCell cellNand2 ∈ mkRules [cellNand2] :=
  ⟨(c2_rule_set [cellNand2]).1 _ (by decide),
    (c2_rule_set [cellNand2]).2.2.2.2.1 _ (by decide)⟩

/-- C4: the rule declaration order of Synthesizer::new depends on the values()
iteration order of the std HashMap holding the library, which varies between
executions: the two possible iteration orders of the same two-cell library
give different rule lists (though the same rules up to permutation). -/
theorem c4_rule_order_unstable :
    mkRules [cellNand2, cellInv] ≠ mkRules [cellInv, cellNand2] ∧
    (mkRules [cellNand2, cellInv]).Perm (mkRules [cellInv, cellNand2]) := by
  constructor
  · decide
  · show (builtinRules ++ [Rule.ofCell cellNand2, Rule.ofCell cellInv]).Perm
        (builtinRules ++ [Rule.ofCell cellInv, Rule.ofCell cellNand2])
    exact List.Perm.append_left builtinRules
      (List.Perm.swap (Rule.ofCell cellInv) (Rule.ofCell cellNand2) [])

/-- C5: whatever the stop reason of the saturation runner (budget cuts
included), Synthesizer::run goes on to extract from the resulting e-graph and
returns the extracted expression; the stop reason is never consulted, so the
result is unchanged under any other stop reason. -/
theorem c5_budget_stop_still_extracts (saturate : EGraphC → List BLNode → RunnerOut)
    (solve : EGraphC → Nat → List BLNode) (toSvg : EGraphC → Option Unit)
    (eg : EGraphC) (start : List BLNode) (root : Nat) (rest : List Nat)
    (hroots : (saturate eg start).roots = root :: rest)
    (hsvg : toSvg (saturate eg start).egraph = some ()) :
    Synthesizer_run saturate solve toSvg eg start = some (solve (saturate eg start).egraph root) ∧
    ∀ stop2 : StopReason,
      run_glue solve toSvg ⟨(saturate eg start).egraph, (saturate eg start).roots, stop2⟩ =
        Synthesizer_run saturate solve toSvg eg start := by
  constructor
  · show run_glue solve toSvg (saturate eg start) = _
    rw [run_glue, hroots]
    simp [hsvg]
  · intro stop2
    show run_glue solve toSvg _ = run_glue solve toSvg (saturate eg start)
    rw [run_glue, run_glue, hroots]

/-- C5 (witness): a run whose saturation stops at the node budget still
returns the extracted expression. -/
theorem c5_budget_stop_still_extracts_witness :
    Synthesizer_run (fun _ _ => ⟨[[.symbol "a"]], [0], .nodeLimit⟩)
      (fun _ _ => [.symbol "a"]) (fun _ => some ()) [] [] = some [.symbol "a"] :=
  (c5_budget_stop_still_extracts (fun _ _ => ⟨[[.symbol "a"]], [0], .nodeLimit⟩)
    (fun _ _ => [.symbol "a"]) (fun _ => some ()) [] [] 0 [] rfl rfl).1

/-- C6 (counterexample): called with a third positional argument, main still
synthesizes the hardcoded start expression, not the supplied argument. -/
theorem c6_third_arg_ignored :
    main_config ["synth", "lib.json", "Area", "(! a)"]
        = some ("lib.json", Metric.area, hardcoded_start) ∧
    hardcoded_start ≠ "(! a)" := by
  constructor
  · rfl
  · decide

/-- C6 (amended): the CLI reads exactly two positional arguments, the library
path at argv[1] and the metric name at argv[2]; the synthesized expression is
the hardcoded start string, unaffected by anything after argv[2]; missing
arguments or an unknown metric panic (non-zero exit). -/
theorem c6_cli_amended (p lib mname : String) (rest rest2 : List String) :
    main_config (p :: lib :: mname :: rest)
        = (Metric.from_str mname).map (fun m => (lib, m, hardcoded_start)) ∧
    main_config (p :: lib :: mname :: rest) = main_config (p :: lib :: mname :: rest2) ∧
    main_config [p] = none ∧
    main_config [p, lib] = none := by
  refine ⟨?_, ?_, rfl, rfl⟩
  · cases h : Metric.from_str mname <;> simp [main_config, h]
  · cases h : Metric.from_str mname <;> simp [main_config, h]

/-- C7 (counterexample): when egraph.svg cannot be written, run panics at the
unwrap — modelled as none, no value reaches the caller — instead of returning
the failure as an error result. -/
theorem c7_svg_failure_panics :
    Synthesizer_run (fun _ _ => ⟨[[.symbol "a"]], [0], .saturated⟩)
      (fun _ _ => [.symbol "a"]) (fun _ => none) [] [] = none := rfl

/-- C7 (amended): a failed egraph.svg write makes run panic at the unwrap of
the to_svg result, so no expression is returned; the write is attempted once
and never retried. -/
theorem c7_svg_failure_amended (saturate : EGraphC → List BLNode → RunnerOut)
    (solve : EGraphC → Nat → List BLNode) (toSvg : EGraphC → Option Unit)
    (eg : EGraphC) (start : List BLNode)
    (hsvg : toSvg (saturate eg start).egraph = none) :
    Synthesizer_run saturate solve toSvg eg start = none := by
  show run_glue solve toSvg (saturate eg start) = none
  rw [run_glue]
  cases hr : (saturate eg start).roots.get? 0 <;> simp [hr, hsvg]

/-- C7 (amended, witness): a concrete run with a failing svg writer returns
no expression. -/
theorem c7_svg_failure_amended_witness :
    Synthesizer_run (fun _ _ => ⟨[], [0], .timeLimit⟩)
      (fun _ _ => []) (fun _ => none) [] [] = none :=
  c7_svg_failure_amended (fun _ _ => ⟨[], [0], .timeLimit⟩)
    (fun _ _ => []) (fun _ => none) [] [] rfl

theorem collect_append (e : List BLNode) :
    ∀ (pinIds : List Nat) (names : List String), pinIds.all (pin_ok e) = true →
      pinIds.foldl (outputStep e) (some names) = some (names ++ collect_output_names e pinIds) := by
  intro pinIds
  induction pinIds with
  | nil =>
    intro names _
    simp [collect_output_names]
  | cons id rest ih =>
    intro names hok
    simp only [List.all_cons, Bool.and_eq_true] at hok
    obtain ⟨h1, h2⟩ := hok
    simp only [List.foldl_cons]
    cases hge : e.get? id with
    | none =>
      simp only [pin_ok, hge] at h1
      exact Bool.noConfusion h1
    | some node =>
      cases node
      case output sid =>
        cases hsy : e.get? sid with
        | none =>
          simp only [pin_ok, hge, hsy] at h1
          exact Bool.noConfusion h1
        | some snode =>
          cases snode
          case symbol s =>
            have hstep : outputStep e (some names) id = some (names ++ [s]) := by
              simp only [outputStep, hge, hsy]
            have hcol : collect_output_names e (id :: rest)
                = s :: collect_output_names e rest := by
              simp only [collect_output_names, hge, hsy]
            rw [hstep, hcol, ih (names ++ [s]) h2]
            simp
          all_goals (simp only [pin_ok, hge, hsy] at h1; exact Bool.noConfusion h1)
      all_goals {
        have hstep : outputStep e (some names) id = some names := by
          simp only [outputStep, hge]
        have hcol : collect_output_names e (id :: rest) = collect_output_names e rest := by
          simp only [collect_output_names, hge]
        rw [hstep, hcol]
        exact ih names h2 }

theorem first_output_eq_head (e : List BLNode) :
    ∀ pinIds, pinIds.all (pin_ok e) = true →
      first_output_name e pinIds = (collect_output_names e pinIds).head? := by
  intro pinIds
  induction pinIds with
  | nil => intro _; rfl
  | cons id rest ih =>
    intro hok
    simp only [List.all_cons, Bool.and_eq_true] at hok
    obtain ⟨h1, h2⟩ := hok
    cases hge : e.get? id with
    | none =>
      simp only [pin_ok, hge] at h1
      exact Bool.noConfusion h1
    | some node =>
      cases node
      case output sid =>
        cases hsy : e.get? sid with
        | none =>
          simp only [pin_ok, hge, hsy] at h1
          exact Bool.noConfusion h1
        | some snode =>
          cases snode
          case symbol s =>
            simp only [first_output_name, collect_output_names, hge, hsy, List.head?_cons]
          all_goals (simp only [pin_ok, hge, hsy] at h1; exact Bool.noConfusion h1)
      all_goals {
        have ha : first_output_name e (id :: rest) = first_output_name e rest := by
          simp only [first_output_name, hge]
        have hb : collect_output_names e (id :: rest) = collect_output_names e rest := by
          simp only [collect_output_names, hge]
        rw [ha, hb]
        exact ih h2 }

theorem first_output_none (e : List BLNode) :
    ∀ pinIds, (∀ id ∈ pinIds, ∀ sid, e.get? id ≠ some (.output sid)) →
      first_output_name e pinIds = none := by
  intro pinIds
  induction pinIds with
  | nil => intro _; rfl
  | cons id rest ih =>
    intro h
    cases hge : e.get? id with
    | none =>
      have h0 : first_output_name e (id :: rest) = first_output_name e rest := by
        simp only [first_output_name, hge]
      rw [h0]
      exact ih fun i hi sid => h i (List.mem_cons_of_mem id hi) sid
    | some node =>
      cases node
      case output sid => exact absurd hge (h id (List.mem_cons_self id rest) sid)
      all_goals {
        have h0 : first_output_name e (id :: rest) = first_output_name e rest := by
          simp only [first_output_name, hge]
        rw [h0]
        exact ih fun i hi sid => h i (List.mem_cons_of_mem id hi) sid }

/-- C10: on an expression whose root is a Gate with well-formed pins,
expr_get_gate_output_name returns the port symbol of the first Output pin in
pin order (via the claim-side first_output_name), and when no pin is an Output
it returns none, the model of the indexing panic names[0] on the empty
vector. -/
theorem c10_gate_output_name (e : List BLNode) (name : String) (pinIds : List Nat)
    (hroot : e.getLast? = some (.gate name pinIds))
    (hok : pinIds.all (pin_ok e) = true) :
    expr_get_gate_output_name e = first_output_name e pinIds ∧
    ((∀ id ∈ pinIds, ∀ sid, e.get? id ≠ some (.output sid)) →
      expr_get_gate_output_name e = none) := by
  have hmain : expr_get_gate_output_name e = first_output_name e pinIds := by
    have hnames : outputNames e pinIds = some (collect_output_names e pinIds) := by
      have h := collect_append e pinIds [] hok
      simpa [outputNames] using h
    simp only [expr_get_gate_output_name, hroot, hnames]
    exact (first_output_eq_head e pinIds hok).symm
  refine ⟨hmain, fun hno => ?_⟩
  rw [hmain]
  exact first_output_none e pinIds hno

/-- C10 (witness): the inv gate expression with pins [Input A a, Output Y]. -/
theorem c10_gate_output_name_witness :
    expr_get_gate_output_name egateExpr = first_output_name egateExpr [4, 1] ∧
    ((∀ id ∈ [4, 1], ∀ sid, egateExpr.get? id ≠ some (.output sid)) →
      expr_get_gate_output_name egateExpr = none) :=
  c10_gate_output_name egateExpr "inv" [4, 1] (by decide) (by decide)

end NetlistSynth
